import Mathlib

/-!
Verification of the DevHub dashboard query pipeline (src/js/app.js).

The embedding models JS strings as lists of characters, JS numbers used by
the pipeline as integers (dates appear only through their parsed timestamp
value), and the DOM-held query state (search text, sort key) as explicit
fields of the dashboard state.  Array.prototype.sort is in-place, so the
recompute pipeline is modelled over array values that are either an alias
of the stored this.projects array or a freshly allocated array.
-/

/-- A JS string, as its list of characters. -/
abbrev Str : Type := List Char

/-- The characters of a Lean string literal, used for the JS string constants. -/
def strOf (s : String) : Str := s.data

/-- String.prototype.toLowerCase, modelled as per-character ASCII lowering. -/
def jsToLower (s : Str) : Str := s.map Char.toLower

/-- String.prototype.includes: the second string occurs contiguously in the first. -/
def jsIncludes (s sub : Str) : Bool :=
  (List.range (s.length + 1)).any (fun i => sub.isPrefixOf (s.drop i))

/-- One project record (class Project).  fechaActualizacion carries the
timestamp value that new Date(...) parses the stored date string to, since
the pipeline only ever compares dates numerically. -/
structure Project where
  id : Int
  nombre : Str
  estado : Str
  fechaActualizacion : Int
  tecnologias : List Str
  descripcion : Str
deriving DecidableEq

/-- Project.getStatusClass: object-literal lookup, undefined (none) when the
estado is not one of the three keys. -/
def getStatusClass (p : Project) : Option Str :=
  if p.estado = strOf "en-progreso" then some (strOf "status-progress")
  else if p.estado = strOf "completados" then some (strOf "status-completed")
  else if p.estado = strOf "pausados" then some (strOf "status-paused")
  else none

/-- Project.getStatusText: object-literal lookup, undefined (none) when the
estado is not one of the three keys. -/
def getStatusText (p : Project) : Option Str :=
  if p.estado = strOf "en-progreso" then some (strOf "En Progreso")
  else if p.estado = strOf "completados" then some (strOf "Completado")
  else if p.estado = strOf "pausados" then some (strOf "Pausado")
  else none

/-- The DashboardManager state plus the two DOM inputs the recompute reads
(searchInput.value and sortSelect.value) and the localStorage entry under
the key currentFilter. -/
structure DashState where
  projects : List Project
  currentFilter : Str
  currentPage : Int
  searchInputValue : Str
  sortSelectValue : Str
  storedFilter : Option Str
deriving DecidableEq

/-- this.projectsPerPage. -/
def projectsPerPage : Nat := 10

/-- DashboardManager.filterProjects as a function of the active filter. -/
def filterProjects (currentFilter : Str) (projects : List Project) : List Project :=
  if currentFilter = strOf "todos" then projects
  else projects.filter (fun p => p.estado == currentFilter)

/-- DashboardManager.searchProjects: the input value is lowercased once and
matched against the lowercased project name with includes. -/
def searchProjects (searchInput : Str) (projects : List Project) : List Project :=
  projects.filter (fun p => jsIncludes (jsToLower p.nombre) (jsToLower searchInput))

/-- String.prototype.localeCompare, modelled as character-code lexicographic
comparison returning a negative, zero or positive number. -/
def localeCompare : Str → Str → Int
  | [], [] => 0
  | [], _ :: _ => -1
  | _ :: _, [] => 1
  | a :: as, b :: bs =>
    if a < b then -1 else if b < a then 1 else localeCompare as bs

/-- The comparator passed to projects.sort.  For a sort key outside the three
recognized values the JS comparator returns undefined; SortCompare converts
that to NaN and treats it as +0, so the model returns 0 there. -/
def compareProjects (sortSelect : Str) (a b : Project) : Int :=
  if sortSelect = strOf "fechaActualizacion" then
    b.fechaActualizacion - a.fechaActualizacion
  else if sortSelect = strOf "nombre" then localeCompare a.nombre b.nombre
  else if sortSelect = strOf "estado" then localeCompare a.estado b.estado
  else 0

/-- The not-after relation induced by the comparator: a may precede b. -/
def sortLE (sortSelect : Str) (a b : Project) : Bool :=
  compareProjects sortSelect a b ≤ 0

/-- DashboardManager.sortProjects on an array value: Array.prototype.sort is
stable (ES2019), modelled by the stable mergeSort under the comparator. -/
def sortProjects (sortSelect : Str) (projects : List Project) : List Project :=
  projects.mergeSort (sortLE sortSelect)

/-- The index clamping that Array.prototype.slice applies to an argument. -/
def jsSliceBound (len idx : Int) : Int :=
  if idx < 0 then max (len + idx) 0 else min idx len

/-- Array.prototype.slice(start, stop) per the ECMAScript algorithm. -/
def jsSlice {α : Type} (l : List α) (start stop : Int) : List α :=
  (l.drop (jsSliceBound l.length start).toNat).take
    ((jsSliceBound l.length stop) - (jsSliceBound l.length start)).toNat

/-- DashboardManager.paginateProjects as a function of the current page. -/
def paginateProjects (currentPage : Int) (projects : List Project) : List Project :=
  jsSlice projects ((currentPage - 1) * (projectsPerPage : Int))
    ((currentPage - 1) * (projectsPerPage : Int) + (projectsPerPage : Int))

/-- The page count computed in setupPagination: Math.ceil(total / 10). -/
def totalPages (totalProjects : Nat) : Nat :=
  (totalProjects + (projectsPerPage - 1)) / projectsPerPage

/-- A JS array value flowing through the recompute: either an alias of the
stored this.projects array, or a freshly allocated array. -/
inductive JsArr where
  | projectsRef : JsArr
  | freshArr : List Project → JsArr
deriving DecidableEq

/-- Reading the contents of an array value in a given state. -/
def derefArr (s : DashState) : JsArr → List Project
  | .projectsRef => s.projects
  | .freshArr l => l

/-- filterProjects as run by loadProjects: with the "todos" filter it returns
this.projects itself (an alias); otherwise Array.prototype.filter allocates
a new array. -/
def filterProjectsRun (s : DashState) : JsArr :=
  if s.currentFilter = strOf "todos" then .projectsRef
  else .freshArr (s.projects.filter (fun p => p.estado == s.currentFilter))

/-- searchProjects as run by loadProjects: Array.prototype.filter always
allocates a new array. -/
def searchProjectsRun (s : DashState) (a : JsArr) : JsArr :=
  .freshArr (searchProjects s.searchInputValue (derefArr s a))

/-- sortProjects as run by loadProjects: Array.prototype.sort reorders its
receiver in place and returns the same array, so sorting the alias of
this.projects rewrites the stored collection. -/
def sortProjectsRun (s : DashState) (a : JsArr) : DashState × JsArr :=
  match a with
  | .projectsRef =>
    ({s with projects := sortProjects s.sortSelectValue s.projects}, .projectsRef)
  | .freshArr l => (s, .freshArr (sortProjects s.sortSelectValue l))

/-- The sorted, searched, filtered sequence the recompute paginates. -/
def matchingProjects (s : DashState) : List Project :=
  sortProjects s.sortSelectValue
    (searchProjects s.searchInputValue (filterProjects s.currentFilter s.projects))

/-- DashboardManager.loadProjects: the recompute.  Returns the possibly
mutated state, the rendered page slice, and the page count passed to the
pagination widget (setupPagination computes it from sortedProjects.length). -/
def loadProjects (s : DashState) : DashState × List Project × Nat :=
  let filtered := filterProjectsRun s
  let searched := searchProjectsRun s filtered
  let res := sortProjectsRun s searched
  let sorted := derefArr res.fst res.snd
  (res.fst, paginateProjects res.fst.currentPage sorted, totalPages sorted.length)

/-- DashboardManager.handleFilterChange: store the filter, persist it under
the currentFilter key, reset the page to 1, and rerun loadProjects
(setActiveFilter only toggles button CSS classes). -/
def handleFilterChange (filter : Str) (s : DashState) : DashState :=
  (loadProjects
    {s with currentFilter := filter, storedFilter := some filter, currentPage := 1}).fst

/-- The input event handler on searchInput: by the time it fires the DOM
field holds the new text, and the handler only reruns loadProjects. -/
def handleSearchInput (text : Str) (s : DashState) : DashState :=
  (loadProjects {s with searchInputValue := text}).fst

/-- The click handler that setupPagination attaches to every pagination
button: parseInt(button.dataset.page) is none when it yields NaN, and any
parsed number is assigned to this.currentPage unconditionally. -/
def handlePageClick (dataPage : Option Int) (s : DashState) : DashState :=
  match dataPage with
  | none => s
  | some page => (loadProjects {s with currentPage := page}).fst

/-- Sample record with a recognized status, for concrete witnesses. -/
def proj1 : Project :=
  { id := 1, nombre := strOf "Ecommerce", estado := strOf "en-progreso",
    fechaActualizacion := 100, tecnologias := [strOf "React"],
    descripcion := strOf "tienda" }

/-- Second sample record, completed and older. -/
def proj2 : Project :=
  { id := 2, nombre := strOf "Blog", estado := strOf "completados",
    fechaActualizacion := 50, tecnologias := [strOf "Vue"],
    descripcion := strOf "blog" }

/-- Third sample record: same date as proj1, for stability checks. -/
def proj3 : Project :=
  { id := 3, nombre := strOf "Gestion", estado := strOf "pausados",
    fechaActualizacion := 100, tecnologias := [], descripcion := strOf "app" }

/-- Record with a status outside the three known tokens. -/
def projUnknown : Project :=
  { id := 4, nombre := strOf "Misc", estado := strOf "archivado",
    fechaActualizacion := 7, tecnologias := [], descripcion := strOf "" }

/-- Sample collection for concrete witnesses. -/
def sampleProjects : List Project := [proj1, proj2, proj3]

/-- Sample dashboard state: one project, page 1, the "todos" filter. -/
def exState : DashState :=
  { projects := [proj1], currentFilter := strOf "todos", currentPage := 1,
    searchInputValue := strOf "", sortSelectValue := strOf "fechaActualizacion",
    storedFilter := none }

/-! ### Helper lemmas -/

/-- The recompute leaves the dashboard state untouched: the search step
always hands the sort step a fresh array, so the in-place sort never
reaches the stored collection. -/
theorem loadProjects_fst (s : DashState) : (loadProjects s).fst = s := rfl

/-- Had the in-place sort been run on the alias that the "todos" filter
returns, it would have rewritten the stored collection; the copy made by
the search step is what shields it. -/
theorem sortProjectsRun_ref_mutates (s : DashState) :
    (sortProjectsRun s .projectsRef).fst.projects =
      sortProjects s.sortSelectValue s.projects := rfl

/-- The recompute, expressed over plain lists. -/
theorem loadProjects_eq (s : DashState) :
    loadProjects s =
      (s, paginateProjects s.currentPage (matchingProjects s),
        totalPages (matchingProjects s).length) := by
  unfold loadProjects filterProjectsRun searchProjectsRun sortProjectsRun
  unfold matchingProjects filterProjects searchProjects derefArr
  by_cases h : s.currentFilter = strOf "todos" <;> simp [h]

/-! ### C6: the recompute never modifies the stored collection -/

/-- C6: for every dashboard state, running the recompute (filter, then
search, then sort, then paginate) leaves the stored project collection as
the same sequence of the same records in the same order. -/
theorem recompute_preserves_projects (s : DashState) :
    (loadProjects s).fst.projects = s.projects := rfl

/-! ### C7: handleFilterChange -/

/-- C7: handleFilterChange sets the active filter to the given category,
persists it to the external key-value store, resets the current page to 1,
reruns the recompute, and changes no other query-state field. -/
theorem handleFilterChange_correct (f : Str) (s : DashState) :
    (handleFilterChange f s).currentFilter = f ∧
    (handleFilterChange f s).storedFilter = some f ∧
    (handleFilterChange f s).currentPage = 1 ∧
    (handleFilterChange f s).projects = s.projects ∧
    (handleFilterChange f s).searchInputValue = s.searchInputValue ∧
    (handleFilterChange f s).sortSelectValue = s.sortSelectValue :=
  ⟨rfl, rfl, rfl, rfl, rfl, rfl⟩

/-! ### C8: setting the search text never resets the page -/

/-- C8: after a search-input event the current page is whatever it was
before, for every state and every new text, even when the shrunken result
leaves that page beyond the new page count; the text itself is taken
verbatim into the DOM field the recompute reads. -/
theorem handleSearchInput_keeps_page (t : Str) (s : DashState) :
    (handleSearchInput t s).currentPage = s.currentPage ∧
    (handleSearchInput t s).searchInputValue = t :=
  ⟨rfl, rfl⟩

/-! ### C1: the page-click handler performs no range check -/

/-- C1 counterexample: in a state whose recompute reports exactly 1 page,
clicking a button carrying page 0 - outside the valid range 1..1 - is not
a no-op: the current page becomes 0. -/
theorem handlePageClick_not_range_guarded :
    (loadProjects exState).snd.snd = 1 ∧
    ¬ (1 ≤ (0 : Int) ∧ (0 : Int) ≤ ((loadProjects exState).snd.snd : Int)) ∧
    (handlePageClick (some 0) exState).currentPage ≠ exState.currentPage := by
  refine ⟨?_, by decide, by decide⟩
  rw [loadProjects_eq]
  show totalPages (matchingProjects exState).length = 1
  have h1 : searchProjects exState.searchInputValue
      (filterProjects exState.currentFilter exState.projects) = [proj1] := by decide
  unfold matchingProjects
  rw [h1]
  simp [sortProjects]
  rfl

/-- C1 amended: the pagination click handler assigns every parsed page
number to the current page unconditionally, in or out of range; only a
dataset value that parseInt turns into NaN is a no-op. -/
theorem handlePageClick_sets_any_page (s : DashState) (n : Int) :
    (handlePageClick (some n) s).currentPage = n ∧ handlePageClick none s = s :=
  ⟨rfl, rfl⟩

/-! ### C2: the filter step -/

/-- C2: with a filter other than the "todos" sentinel every record kept by
the filter step has exactly that status, and with the "todos" sentinel the
filter step returns the whole collection. -/
theorem filterProjects_correct (projects : List Project) (f : Str) :
    (f ≠ strOf "todos" → ∀ p ∈ filterProjects f projects, p.estado = f) ∧
    (f = strOf "todos" → filterProjects f projects = projects) := by
  constructor
  · intro hf p hp
    simp only [filterProjects, if_neg hf, List.mem_filter, beq_iff_eq] at hp
    exact hp.2
  · intro hf
    simp [filterProjects, hf]

/-- C2 witness at a concrete collection and the concrete filter
"completados". -/
theorem filterProjects_correct_witness :
    (strOf "completados" ≠ strOf "todos") ∧
    (∀ p ∈ filterProjects (strOf "completados") sampleProjects,
      p.estado = strOf "completados") :=
  ⟨by decide, (filterProjects_correct sampleProjects (strOf "completados")).1 (by decide)⟩

/-! ### C9: status label and style derivations -/

/-- C9: each of the three known status tokens maps to its fixed style
identifier and label, any other status yields none for both, and both
derivations are functions of the record alone. -/
theorem status_derivations_correct (p : Project) :
    (p.estado = strOf "en-progreso" →
      getStatusClass p = some (strOf "status-progress") ∧
      getStatusText p = some (strOf "En Progreso")) ∧
    (p.estado = strOf "completados" →
      getStatusClass p = some (strOf "status-completed") ∧
      getStatusText p = some (strOf "Completado")) ∧
    (p.estado = strOf "pausados" →
      getStatusClass p = some (strOf "status-paused") ∧
      getStatusText p = some (strOf "Pausado")) ∧
    (p.estado ≠ strOf "en-progreso" → p.estado ≠ strOf "completados" →
      p.estado ≠ strOf "pausados" →
      getStatusClass p = none ∧ getStatusText p = none) := by
  refine ⟨?_, ?_, ?_, ?_⟩
  · intro h
    unfold getStatusClass getStatusText
    rw [h]
    exact ⟨by decide, by decide⟩
  · intro h
    unfold getStatusClass getStatusText
    rw [h]
    exact ⟨by decide, by decide⟩
  · intro h
    unfold getStatusClass getStatusText
    rw [h]
    exact ⟨by decide, by decide⟩
  · intro h1 h2 h3
    unfold getStatusClass getStatusText
    rw [if_neg h1, if_neg h2, if_neg h3, if_neg h1, if_neg h2, if_neg h3]
    exact ⟨rfl, rfl⟩

/-- C9 witness at a record with a known status and a record with an
unrecognized status. -/
theorem status_derivations_witness :
    (proj1.estado = strOf "en-progreso" ∧
      getStatusClass proj1 = some (strOf "status-progress") ∧
      getStatusText proj1 = some (strOf "En Progreso")) ∧
    (projUnknown.estado ≠ strOf "en-progreso" ∧
      getStatusClass projUnknown = none ∧ getStatusText projUnknown = none) := by
  refine ⟨⟨by decide, ?_⟩, ⟨by decide, ?_⟩⟩
  · exact (status_derivations_correct proj1).1 (by decide)
  · exact ((status_derivations_correct projUnknown).2.2.2 (by decide) (by decide) (by decide))

/-! ### C3: the search step -/

/-- Every string includes the empty string. -/
theorem jsIncludes_empty (s : Str) : jsIncludes s [] = true := by
  unfold jsIncludes
  rw [List.any_eq_true]
  exact ⟨0, List.mem_range.mpr (Nat.succ_pos _), List.isPrefixOf_nil_left⟩

/-- C3: the search step keeps exactly the records whose lowercased name
includes the lowercased search text; searching with "REACT" and with
"react" yields the same result; the empty search text keeps every record. -/
theorem searchProjects_correct (projects : List Project) (txt : Str) :
    (∀ p, p ∈ searchProjects txt projects ↔
      p ∈ projects ∧ jsIncludes (jsToLower p.nombre) (jsToLower txt) = true) ∧
    searchProjects (strOf "REACT") projects = searchProjects (strOf "react") projects ∧
    searchProjects (strOf "") projects = projects := by
  refine ⟨?_, ?_, ?_⟩
  · intro p
    simp [searchProjects, List.mem_filter]
  · have h : jsToLower (strOf "REACT") = jsToLower (strOf "react") := by decide
    simp only [searchProjects, h]
  · have h : jsToLower (strOf "") = [] := rfl
    simp only [searchProjects, h]
    exact List.filter_eq_self.mpr (fun p _ => jsIncludes_empty (jsToLower p.nombre))

/-! ### C10: unrecognized sort keys leave the order unchanged -/

/-- C10: for a sort key outside the three recognized values the comparator
yields no number, every comparison is treated as a tie, and the stable sort
returns its input in unchanged order. -/
theorem sortProjects_unknown_key (key : Str) (projects : List Project)
    (h1 : key ≠ strOf "fechaActualizacion") (h2 : key ≠ strOf "nombre")
    (h3 : key ≠ strOf "estado") :
    sortProjects key projects = projects := by
  have hpw : projects.Pairwise (fun a b => sortLE key a b = true) := by
    refine List.pairwise_of_forall_mem_list (fun a _ b _ => ?_)
    simp [sortLE, compareProjects, h1, h2, h3]
  exact List.mergeSort_of_sorted hpw

/-- C10 witness: the concrete unknown key "x" on the sample collection. -/
theorem sortProjects_unknown_key_witness :
    (strOf "x" ≠ strOf "fechaActualizacion") ∧ (strOf "x" ≠ strOf "nombre") ∧
    (strOf "x" ≠ strOf "estado") ∧
    sortProjects (strOf "x") sampleProjects = sampleProjects :=
  ⟨by decide, by decide, by decide,
    sortProjects_unknown_key (strOf "x") sampleProjects (by decide) (by decide) (by decide)⟩

/-! ### C5: sorting by last-updated descending -/

/-- The date comparator accepts exactly the pairs ordered most recent
first. -/
theorem sortLE_fecha (a b : Project) :
    sortLE (strOf "fechaActualizacion") a b = true ↔
      b.fechaActualizacion ≤ a.fechaActualizacion := by
  unfold sortLE compareProjects
  rw [if_pos (rfl : strOf "fechaActualizacion" = strOf "fechaActualizacion")]
  rw [decide_eq_true_eq]
  omega

/-- The date comparator relation is transitive. -/
theorem sortLE_fecha_trans (a b c : Project) :
    sortLE (strOf "fechaActualizacion") a b = true →
      sortLE (strOf "fechaActualizacion") b c = true →
      sortLE (strOf "fechaActualizacion") a c = true := by
  simp only [sortLE_fecha]
  omega

/-- The date comparator relation is total. -/
theorem sortLE_fecha_total (a b : Project) :
    (sortLE (strOf "fechaActualizacion") a b ||
      sortLE (strOf "fechaActualizacion") b a) = true := by
  rw [Bool.or_eq_true, sortLE_fecha, sortLE_fecha]
  omega

/-- C5: sorting with the last-updated key puts the most recent record
first - every adjacent pair is ordered by descending date - and records
with equal dates keep their original relative order. -/
theorem sortProjects_by_date_correct (projects : List Project) :
    List.Chain' (fun a b => b.fechaActualizacion ≤ a.fechaActualizacion)
      (sortProjects (strOf "fechaActualizacion") projects) ∧
    (∀ d : Int,
      (sortProjects (strOf "fechaActualizacion") projects).filter
          (fun p => p.fechaActualizacion == d) =
        projects.filter (fun p => p.fechaActualizacion == d)) := by
  constructor
  · have hp := List.sorted_mergeSort sortLE_fecha_trans sortLE_fecha_total projects
    have hp2 := hp.imp (fun hab => (sortLE_fecha _ _).mp hab)
    exact hp2.chain'
  · intro d
    have hsub : List.Sublist (projects.filter (fun p => p.fechaActualizacion == d)) projects :=
      List.filter_sublist projects
    have hpw : (projects.filter (fun p => p.fechaActualizacion == d)).Pairwise
        (fun a b => sortLE (strOf "fechaActualizacion") a b = true) := by
      refine List.pairwise_of_forall_mem_list (fun a ha b hb => ?_)
      rw [List.mem_filter, beq_iff_eq] at ha hb
      rw [sortLE_fecha, ha.2, hb.2]
    have hstep := List.sublist_mergeSort sortLE_fecha_trans sortLE_fecha_total hpw hsub
    have h2 := hstep.filter (fun p => p.fechaActualizacion == d)
    simp only [List.filter_filter, Bool.and_self] at h2
    have hperm := List.mergeSort_perm projects (sortLE (strOf "fechaActualizacion"))
    have hlen : ((projects.mergeSort (sortLE (strOf "fechaActualizacion"))).filter
        (fun p => p.fechaActualizacion == d)).length =
        (projects.filter (fun p => p.fechaActualizacion == d)).length := by
      rw [← List.countP_eq_length_filter, ← List.countP_eq_length_filter]
      exact hperm.countP_eq _
    exact (h2.eq_of_length hlen.symm).symm

/-! ### C4: pagination -/

/-- For the positive page numbers the recompute uses, the slice call reduces
to drop and take. -/
theorem paginateProjects_nat (l : List Project) (i : Nat) :
    paginateProjects ((i : Int) + 1) l = (l.drop (i * 10)).take 10 := by
  have h1 : (jsSliceBound l.length (((i : Int) + 1 - 1) * (projectsPerPage : Int))).toNat
      = min (i * 10) l.length := by
    unfold jsSliceBound projectsPerPage
    split <;> omega
  have h2 : ((jsSliceBound l.length
        (((i : Int) + 1 - 1) * (projectsPerPage : Int) + (projectsPerPage : Int)))
      - jsSliceBound l.length (((i : Int) + 1 - 1) * (projectsPerPage : Int))).toNat
      = min (i * 10 + 10) l.length - min (i * 10) l.length := by
    unfold jsSliceBound projectsPerPage
    split <;> split <;> omega
  unfold paginateProjects jsSlice
  rw [h1, h2]
  rcases le_or_lt l.length (i * 10) with hle | hlt
  · rw [min_eq_right hle, List.drop_length, List.drop_eq_nil_of_le hle]
    simp
  · rw [min_eq_left hlt.le]
    rcases le_or_lt l.length (i * 10 + 10) with hle2 | hlt2
    · rw [min_eq_right hle2]
      have hlen : (l.drop (i * 10)).length = l.length - i * 10 := List.length_drop _ _
      rw [List.take_of_length_le hlen.le, List.take_of_length_le (by omega)]
    · rw [min_eq_left hlt2.le]
      congr 1
      omega

/-- Concatenating the 10-element chunks for pages 1..totalPages rebuilds the
whole list. -/
theorem join_pages (l : List Project) :
    ((List.range (totalPages l.length)).map (fun i => (l.drop (i * 10)).take 10)).flatten
      = l := by
  by_cases h : l.length = 0
  · rw [List.length_eq_zero.mp h]
    rfl
  · have htp : totalPages l.length = totalPages (l.drop 10).length + 1 := by
      rw [List.length_drop]
      unfold totalPages projectsPerPage
      omega
    rw [htp, List.range_succ_eq_map, List.map_cons, List.flatten_cons, List.map_map]
    have hmap : ((List.range (totalPages (l.drop 10).length)).map
        ((fun i => (l.drop (i * 10)).take 10) ∘ Nat.succ)) =
        (List.range (totalPages (l.drop 10).length)).map
          (fun i => ((l.drop 10).drop (i * 10)).take 10) := by
      refine List.map_congr_left (fun i _ => ?_)
      simp only [Function.comp]
      rw [List.drop_drop]
      congr 2
      omega
    rw [hmap, join_pages (l.drop 10)]
    simp [List.take_append_drop]
termination_by l.length
decreasing_by
  simp only [List.length_drop]
  omega

/-- setupPagination computes exactly the mathematical ceiling of the
matching count over the page size. -/
theorem totalPages_eq_ceil (n : Nat) :
    (totalPages n : Int) = Int.ceil ((n : ℚ) / 10) := by
  have h1 : n ≤ 10 * totalPages n := by
    unfold totalPages projectsPerPage
    omega
  have h2 : 10 * totalPages n < n + 10 := by
    unfold totalPages projectsPerPage
    omega
  symm
  rw [Int.ceil_eq_iff]
  constructor
  · rw [lt_div_iff₀ (by norm_num : (0 : ℚ) < 10)]
    have hz : ((totalPages n : Int) - 1) * 10 < (n : Int) := by omega
    push_cast
    exact_mod_cast hz
  · rw [div_le_iff₀ (by norm_num : (0 : ℚ) < 10)]
    have hz : (n : Int) ≤ (totalPages n : Int) * 10 := by omega
    exact_mod_cast hz

/-- C4: the page count the recompute reports is the ceiling of the matching
count over 10, and concatenating the page slices for pages 1..totalPages in
order reproduces the sorted, searched, filtered sequence exactly. -/
theorem pagination_correct (s : DashState) :
    ((loadProjects s).snd.snd : Int) = Int.ceil (((matchingProjects s).length : ℚ) / 10) ∧
    ((List.range (loadProjects s).snd.snd).map
      (fun (i : Nat) => paginateProjects ((i : Int) + 1) (matchingProjects s))).flatten =
      matchingProjects s := by
  rw [loadProjects_eq]
  constructor
  · exact totalPages_eq_ceil (matchingProjects s).length
  · show ((List.range (totalPages (matchingProjects s).length)).map
      (fun (i : Nat) => paginateProjects ((i : Int) + 1) (matchingProjects s))).flatten =
      matchingProjects s
    have hmap : (List.range (totalPages (matchingProjects s).length)).map
        (fun (i : Nat) => paginateProjects ((i : Int) + 1) (matchingProjects s)) =
        (List.range (totalPages (matchingProjects s).length)).map
          (fun i => ((matchingProjects s).drop (i * 10)).take 10) :=
      List.map_congr_left (fun i _ => paginateProjects_nat (matchingProjects s) i)
    rw [hmap]
    exact join_pages (matchingProjects s)
